import Mathlib

/-!
Shallow embedding of the voice-mode subsystem of the AIPex browser
extension (files `src/lib/components/voice-mode/use-voice-mode.ts` and
`src/lib/components/voice-mode/index.tsx`, the latter containing the
`AudioManager` class).  Amplitudes are modelled as exact rationals,
JavaScript timers as explicit option-valued fields, and the asynchronous
callbacks as explicit step functions on the relevant state records.
-/

/-- The `VoiceState` union type from `types.ts`:
`'idle' | 'listening' | 'speaking' | 'processing'`. -/
inductive VoiceState
  | idle
  | listening
  | speaking
  | processing
deriving DecidableEq, Repr

namespace UseVoiceMode

/-- Constant `ENTER_THRESHOLD = 0.10` from `use-voice-mode.ts`: become listening when
the smoothed level is above this. -/
def ENTER_THRESHOLD : ℚ := 10 / 100

/-- Constant `EXIT_THRESHOLD = 0.03` from `use-voice-mode.ts`: return to idle when
the smoothed level is below this. -/
def EXIT_THRESHOLD : ℚ := 3 / 100

/-- Embeds `audioLevelHistoryRef.current.push(x)` followed by
`if (length > 5) shift()`: append the new sample and drop the oldest one
when this makes the window longer than 5. -/
def pushHistory (history : List ℚ) (x : ℚ) : List ℚ :=
  let h := history ++ [x]
  if h.length > 5 then h.tail else h

/-- Embeds `history.reduce((a, b) => a + b, 0) / Math.max(history.length, 1)`. -/
def avgLevel (history : List ℚ) : ℚ :=
  history.sum / ((max history.length 1 : ℕ) : ℚ)

/-- The two hysteresis comparisons of the `onAudioData` handler (also
re-run verbatim inside the debounce-timer callback):
start from the current state, move to `listening` when idle and above
`ENTER_THRESHOLD`, move to `idle` when listening and below
`EXIT_THRESHOLD`. -/
def desiredState (currentState : VoiceState) (avg : ℚ) : VoiceState :=
  let d := currentState
  let d := if currentState = VoiceState.idle ∧ avg > ENTER_THRESHOLD then
    VoiceState.listening else d
  if currentState = VoiceState.listening ∧ avg < EXIT_THRESHOLD then
    VoiceState.idle else d

/-- The debounce delay selection: 1500 ms when leaving `listening` for
`idle`, otherwise 300 ms. -/
def debounceDelay (currentState desired : VoiceState) : ℚ :=
  if currentState = VoiceState.listening ∧ desired = VoiceState.idle then 1500 else 300

/-- The mutable state touched by the audio-level logic of `useVoiceMode`:
`voiceStateRef`, `audioLevelHistoryRef` and `stateChangeTimerRef`.
A pending debounce timer is recorded as `some delay`. -/
structure VadState where
  voiceState : VoiceState
  history : List ℚ
  timer : Option ℚ
deriving DecidableEq, Repr

/-- The `onAudioData` callback of `use-voice-mode.ts`: when the state is
neither `speaking` nor `processing`, push the sample into the rolling
window, compute the smoothed average, and either schedule a debounce
timer (when a change is desired and none is pending) or cancel the
pending timer (when the desired state matches the current one again). -/
def onAudioData (st : VadState) (sample : ℚ) : VadState :=
  if st.voiceState ≠ VoiceState.speaking ∧ st.voiceState ≠ VoiceState.processing then
    let history := pushHistory st.history sample
    let avg := avgLevel history
    let desired := desiredState st.voiceState avg
    if desired ≠ st.voiceState then
      if st.timer = none then
        { st with history := history,
                  timer := some (debounceDelay st.voiceState desired) }
      else
        { st with history := history }
    else if st.timer ≠ none then
      { st with history := history, timer := none }
    else
      { st with history := history }
  else st

/-- The debounce `setTimeout` callback: re-sample the rolling average,
recompute the desired state, commit it only when it still differs from
the current state and the current state is neither `speaking` nor
`processing`, then clear the timer handle. -/
def timerFire (st : VadState) : VadState :=
  let recentAvg := avgLevel st.history
  let confirmed := desiredState st.voiceState recentAvg
  let st' :=
    if confirmed ≠ st.voiceState ∧ st.voiceState ≠ VoiceState.speaking ∧
        st.voiceState ≠ VoiceState.processing then
      { st with voiceState := confirmed }
    else st
  { st' with timer := none }

end UseVoiceMode

/-- ASCII whitespace test used to model JavaScript string trimming. -/
def isJsWhitespace (c : Char) : Bool :=
  c = ' ' ∨ c = '\t' ∨ c = '\n' ∨ c = '\r'

/-- Models JavaScript `String.prototype.trim`: strip leading and trailing
whitespace characters. -/
def jsTrim (s : String) : String :=
  String.mk (((s.data.dropWhile isJsWhitespace).reverse.dropWhile isJsWhitespace).reverse)

/-- The `SpeechRecognitionResult` interface from `types.ts`:
`{transcript, isFinal, confidence}`. -/
structure TranscriptEvent where
  transcript : String
  isFinal : Bool
  confidence : ℚ
deriving DecidableEq, Repr

namespace UseVoiceMode

/-- The transcript-related mutable state of `useVoiceMode`:
`lastFinalTranscriptRef` and the `transcript` React state. -/
structure TState where
  lastFinal : String
  transcript : String
deriving DecidableEq, Repr

/-- The `onTranscript` callback of `use-voice-mode.ts`: always display the
transcript; when the result is final and non-empty after trimming and
differs from `lastFinalTranscriptRef.current`, record it and invoke
`config.onTextRecognized` with it.  The second component lists the
`onTextRecognized` invocations this event produces. -/
def onTranscript (st : TState) (e : TranscriptEvent) : TState × List String :=
  let st1 : TState := { st with transcript := e.transcript }
  if e.isFinal ∧ jsTrim e.transcript ≠ "" then
    if e.transcript ≠ st1.lastFinal then
      ({ st1 with lastFinal := e.transcript }, [e.transcript])
    else (st1, [])
  else (st1, [])

/-- Deliver a whole sequence of recognition events to `onTranscript`,
collecting every `onTextRecognized` invocation in order. -/
def runTranscripts (st : TState) : List TranscriptEvent → TState × List String
  | [] => (st, [])
  | e :: es =>
    let r := onTranscript st e
    let rest := runTranscripts r.1 es
    (rest.1, r.2 ++ rest.2)

/-- The transcript-state part of the hook's `startListening`:
`setTranscript('')` and `lastFinalTranscriptRef.current = ''`. -/
def startListeningReset (st : TState) : TState :=
  { st with transcript := "", lastFinal := "" }

/-- Outcome of the synthesis call awaited inside the hook's `speak`. -/
inductive SynthResult
  | success
  | failure
deriving DecidableEq, Repr

/-- Observable outcome of one invocation of the hook's `speak`. -/
structure SpeakOutcome where
  state : VoiceState
  uiError : Option String
  speechCompleteCalled : Bool
deriving DecidableEq, Repr

/-- The hook's `speak` from `use-voice-mode.ts`: bail out unchanged when
the audio manager is missing or the hook is uninitialized; otherwise set
the state to `speaking`, await synthesis, and on success go to `idle`
and fire `onSpeechComplete`, while on failure record the error message
and go to `idle`.  `uiError` is the error recorded by this call. -/
def speak (hasManager isInitialized : Bool) (startState : VoiceState)
    (r : SynthResult) : SpeakOutcome :=
  if ¬ hasManager ∨ ¬ isInitialized then
    { state := startState, uiError := none, speechCompleteCalled := false }
  else
    match r with
    | SynthResult.success =>
        { state := VoiceState.idle, uiError := none, speechCompleteCalled := true }
    | SynthResult.failure =>
        { state := VoiceState.idle, uiError := some "Failed to speak",
          speechCompleteCalled := false }

end UseVoiceMode

namespace AudioManager

/-- The recognition handle of `AudioManager` (`this.recognition`); `none`
models the JavaScript `null`. -/
structure AdapterState where
  recognition : Option Unit
deriving DecidableEq, Repr

/-- Events the underlying speech-recognition engine delivers to the
handlers installed by `startListening`. -/
inductive EngineEvent
  | result (text : String) (isFinal : Bool)
  | error (msg : String)
  | ended
deriving DecidableEq, Repr

/-- Callbacks the adapter surfaces to its client (`onTranscriptCallback`
and `onErrorCallback` invocations). -/
inductive Surfaced
  | transcript (text : String) (isFinal : Bool)
  | err (msg : String)
deriving DecidableEq, Repr

/-- One engine event processed by the handlers of `startListening` in
`index.tsx`: `onresult` surfaces a transcript, `onerror` surfaces an
error, and `onend` surfaces nothing but re-issues `recognition.start()`
exactly when the captured `continuous` flag is set and `this.recognition`
is still non-null.  The boolean reports whether a restart was issued. -/
def handleEngineEvent (continuous : Bool) (st : AdapterState) :
    EngineEvent → AdapterState × List Surfaced × Bool
  | EngineEvent.result t f => (st, [Surfaced.transcript t f], false)
  | EngineEvent.error m => (st, [Surfaced.err m], false)
  | EngineEvent.ended =>
      if continuous ∧ st.recognition ≠ none then (st, [], true) else (st, [], false)

/-- Embeds `AudioManager.stopListening`: stop the engine and null the handle
(a null handle stays null). -/
def stopListening (st : AdapterState) : AdapterState :=
  { st with recognition := none }

/-- Embeds `AudioManager.initAudioContext`, driven by the outcome of
`navigator.mediaDevices.getUserMedia` (`Except.error e` models a
rejection with error `e`).  Returns the `onErrorCallback` reports it
emits, and either `ok` with the analysis loop started or the rethrown
original error. -/
def initAudioContext (mic : Except String Unit) : List String × Except String Bool :=
  match mic with
  | Except.ok _ => ([], Except.ok true)
  | Except.error e => (["Microphone access denied"], Except.error e)

/-- Embeds `AudioManager.startListening`: run `initAudioContext`; on success set
up and start recognition, on failure report the caught error through
`onErrorCallback` once more and rethrow.  The boolean reports whether
recognition was started. -/
def managerStartListening (mic : Except String Unit) :
    List String × Except String Bool :=
  match initAudioContext mic with
  | (reports, Except.ok _) => (reports, Except.ok true)
  | (reports, Except.error e) => (reports ++ [e], Except.error e)

/-- The owned handles of `AudioManager` that `destroy` touches. -/
structure ManagerState where
  recognition : Option Unit
  animationId : Option ℕ
  microphone : Option Unit
  audioContext : Option Unit
  analyser : Option Unit
  stream : Option Unit
  frequencyData : Option Unit
deriving DecidableEq, Repr

/-- Resource-release side effects `destroy` can perform. -/
inductive ReleaseAction
  | recognitionStop
  | synthesisCancel
  | cancelAnimationFrame (id : ℕ)
  | micDisconnect
  | contextClose
  | trackStop
deriving DecidableEq, Repr

/-- Embeds `AudioManager.destroy` from `index.tsx`: stop recognition when a
handle exists, always cancel synthesis, cancel the animation frame when
an id exists, disconnect the microphone, close the audio context and
stop the stream tracks when present, then null every handle except
`animationId`, which the source never clears. -/
def destroy (st : ManagerState) : ManagerState × List ReleaseAction :=
  let a1 := match st.recognition with
    | some _ => [ReleaseAction.recognitionStop]
    | none => []
  let a2 := [ReleaseAction.synthesisCancel]
  let a3 := match st.animationId with
    | some i => [ReleaseAction.cancelAnimationFrame i]
    | none => []
  let a4 := match st.microphone with
    | some _ => [ReleaseAction.micDisconnect]
    | none => []
  let a5 := match st.audioContext with
    | some _ => [ReleaseAction.contextClose]
    | none => []
  let a6 := match st.stream with
    | some _ => [ReleaseAction.trackStop]
    | none => []
  ({ recognition := none, animationId := st.animationId, microphone := none,
     audioContext := none, analyser := none, stream := none, frequencyData := none },
   a1 ++ a2 ++ a3 ++ a4 ++ a5 ++ a6)

end AudioManager

namespace UseVoiceMode

/-- Observable outcome of the hook's `startListening`. -/
structure StartOutcome where
  state : VoiceState
  errorReports : List String
  uiError : Option String
  recognitionStarted : Bool
  analysisLoopRunning : Bool
  micRequests : ℕ
deriving DecidableEq, Repr

/-- The hook's `startListening` from `use-voice-mode.ts` composed with
`AudioManager.startListening`: clear the error, start in `idle`, and
await the manager; a failure is caught, the UI error message stored and
the state forced back to `idle`.  `errorReports` lists the invocations
of the error channel (the hook's `onError` handler, which forwards to
`config.onError`); `micRequests` counts the `getUserMedia` calls made. -/
def hookStartListening (mic : Except String Unit) : StartOutcome :=
  match AudioManager.managerStartListening mic with
  | (reports, Except.ok _) =>
      { state := VoiceState.idle, errorReports := reports, uiError := none,
        recognitionStarted := true, analysisLoopRunning := true, micRequests := 1 }
  | (reports, Except.error _) =>
      { state := VoiceState.idle, errorReports := reports,
        uiError := some "Failed to access microphone. Please allow microphone permissions and try again.",
        recognitionStarted := false, analysisLoopRunning := false, micRequests := 1 }

end UseVoiceMode

namespace VoiceMode

/-- Observable outcome of the host-response `setTimeout` handler in
`index.tsx` (the body that runs after `onSubmit` when the mock response
arrives while the state is `processing`). -/
structure ResponseOutcome where
  state : VoiceState
  pendingResponse : Bool
  listeningResumed : Bool
  spokeResponse : Bool
deriving DecidableEq, Repr

/-- The response handler of the `VoiceMode` component: when voice output
is enabled, `speak` the response and, once it resolves, clear the
pending flag and resume listening exactly when the microphone is
enabled (both `speak` and `startListening` leave the state `idle`,
assuming synthesis succeeds); when voice output is disabled, clear the
pending flag and set the state to `idle` — `startListening` is not
invoked on this branch. -/
def handleHostResponse (voiceEnabled micEnabled : Bool) : ResponseOutcome :=
  if voiceEnabled then
    { state := VoiceState.idle, pendingResponse := false,
      listeningResumed := micEnabled, spokeResponse := true }
  else
    { state := VoiceState.idle, pendingResponse := false,
      listeningResumed := false, spokeResponse := false }

end VoiceMode

/-- Direct formalisation of the de-duplication rule as the specification
states it: a final transcript is forwarded exactly when it is non-empty
after trimming and differs from the text of the immediately preceding
final transcript event (`prevFinalText`, initially the empty string);
interim events are ignored. -/
def specDedupCalls (prevFinalText : String) : List TranscriptEvent → List String
  | [] => []
  | e :: es =>
    if e.isFinal then
      (if jsTrim e.transcript ≠ "" ∧ e.transcript ≠ prevFinalText then
        [e.transcript] else []) ++ specDedupCalls e.transcript es
    else specDedupCalls prevFinalText es

/-- De-duplication as the code performs it, phrased recursively: a final
transcript is forwarded exactly when it is non-empty after trimming and
differs from the most recently forwarded final transcript
(`lastForwarded`, initially the empty string). -/
def forwardedDedupCalls (lastForwarded : String) : List TranscriptEvent → List String
  | [] => []
  | e :: es =>
    if e.isFinal ∧ jsTrim e.transcript ≠ "" ∧ e.transcript ≠ lastForwarded then
      e.transcript :: forwardedDedupCalls e.transcript es
    else forwardedDedupCalls lastForwarded es


section Theorems
open UseVoiceMode

/-- Helper: with a window of at most 5 samples, pushing a sample yields
exactly the suffix of the at most 5 most recent samples. -/
theorem pushHistory_eq_drop (h : List ℚ) (a : ℚ) (hlen : h.length ≤ 5) :
    pushHistory h a = (h ++ [a]).drop (h.length + 1 - 5) := by
  unfold pushHistory
  rcases Nat.lt_or_ge h.length 5 with h5 | h5
  · rw [if_neg (by simp; omega)]
    have : h.length + 1 - 5 = 0 := by omega
    rw [this, List.drop_zero]
  · have h5' : h.length = 5 := le_antisymm hlen h5
    rw [if_pos (by simp [h5'])]
    have : h.length + 1 - 5 = 1 := by omega
    rw [this, List.drop_one]

/-- Helper: the rolling window never grows beyond 5 samples. -/
theorem pushHistory_length_le (h : List ℚ) (a : ℚ) (hlen : h.length ≤ 5) :
    (pushHistory h a).length ≤ 5 := by
  rw [pushHistory_eq_drop h a hlen]
  simp only [List.length_drop, List.length_append, List.length_cons, List.length_nil]
  omega

/-- Helper: the audio-data handler never changes the conversational
state directly (transitions are only committed by the timer callback). -/
theorem onAudioData_voiceState (st : VadState) (a : ℚ) :
    (onAudioData st a).voiceState = st.voiceState := by
  simp only [onAudioData]
  split_ifs <;> rfl

/-- Helper: whenever the state guard passes, the handler stores exactly
the pushed window. -/
theorem onAudioData_history (st : VadState) (a : ℚ)
    (hs : st.voiceState ≠ VoiceState.speaking ∧ st.voiceState ≠ VoiceState.processing) :
    (onAudioData st a).history = pushHistory st.history a := by
  simp only [onAudioData]
  rw [if_pos hs]
  split_ifs <;> rfl

/-- C1: while the state is `speaking` or `processing`, an amplitude tick
changes nothing at all (no window update, no debounce scheduling) and a
debounce timer that fires merely clears its handle without committing a
transition; moreover the audio-driven logic can only ever move the state
from `idle` to `listening` or from `listening` to `idle`. -/
theorem amplitude_logic_spares_speaking_processing (st : VadState) (a : ℚ) :
    ((st.voiceState = VoiceState.speaking ∨ st.voiceState = VoiceState.processing) →
      onAudioData st a = st ∧ timerFire st = { st with timer := none }) ∧
    (onAudioData st a).voiceState = st.voiceState ∧
    ((timerFire st).voiceState = st.voiceState ∨
      (st.voiceState = VoiceState.idle ∧ (timerFire st).voiceState = VoiceState.listening) ∨
      (st.voiceState = VoiceState.listening ∧ (timerFire st).voiceState = VoiceState.idle)) := by
  refine ⟨?_, onAudioData_voiceState st a, ?_⟩
  · rintro (h | h) <;>
      exact ⟨by simp [onAudioData, h], by simp [timerFire, desiredState, h]⟩
  · obtain ⟨vs, hist, tm⟩ := st
    cases vs with
    | idle =>
        by_cases hgt : avgLevel hist > ENTER_THRESHOLD <;>
          simp [timerFire, desiredState, hgt]
    | listening =>
        by_cases hlt : avgLevel hist < EXIT_THRESHOLD <;>
          simp [timerFire, desiredState, hlt]
    | speaking => simp [timerFire, desiredState]
    | processing => simp [timerFire, desiredState]

/-- C1 witness: a tick in `speaking` is a no-op and a timer firing in
`processing` clears the handle without a transition. -/
theorem amplitude_logic_spares_speaking_processing_witness :
    onAudioData ⟨VoiceState.speaking, [1/2], none⟩ (1/2) = ⟨VoiceState.speaking, [1/2], none⟩ ∧
    timerFire ⟨VoiceState.processing, [1/2], some 300⟩ = ⟨VoiceState.processing, [1/2], none⟩ := by
  have h := amplitude_logic_spares_speaking_processing ⟨VoiceState.speaking, [1/2], none⟩ (1/2)
  have h' := amplitude_logic_spares_speaking_processing ⟨VoiceState.processing, [1/2], some 300⟩ (1/2)
  exact ⟨(h.1 (Or.inl rfl)).1, (h'.1 (Or.inr rfl)).2⟩

/-- C2: on a tick in `idle` or `listening`, the stored window is the at
most 5 most recent samples; with no timer pending, a timer is scheduled
from `idle` exactly when the window average exceeds 0.10 and it carries
a 300 ms delay, and from `listening` exactly when the average is below
0.03, carrying a 1500 ms delay. -/
theorem vad_tick_window_thresholds_delays (st : VadState) (a : ℚ)
    (hs : st.voiceState = VoiceState.idle ∨ st.voiceState = VoiceState.listening)
    (hlen : st.history.length ≤ 5) :
    (onAudioData st a).history = (st.history ++ [a]).drop (st.history.length + 1 - 5) ∧
    (onAudioData st a).history.length ≤ 5 ∧
    (st.timer = none →
      (st.voiceState = VoiceState.idle →
        (onAudioData st a).timer =
          if avgLevel (pushHistory st.history a) > ENTER_THRESHOLD then some 300 else none) ∧
      (st.voiceState = VoiceState.listening →
        (onAudioData st a).timer =
          if avgLevel (pushHistory st.history a) < EXIT_THRESHOLD then some 1500 else none)) := by
  have hguard : st.voiceState ≠ VoiceState.speaking ∧ st.voiceState ≠ VoiceState.processing := by
    rcases hs with h | h <;> rw [h] <;> exact ⟨by simp, by simp⟩
  refine ⟨?_, ?_, ?_⟩
  · rw [onAudioData_history st a hguard, pushHistory_eq_drop st.history a hlen]
  · rw [onAudioData_history st a hguard]
    exact pushHistory_length_le st.history a hlen
  · intro htm
    obtain ⟨vs, hist, tm⟩ := st
    cases htm
    constructor
    · intro hv
      cases hv
      by_cases hgt : avgLevel (pushHistory hist a) > ENTER_THRESHOLD <;>
        simp [onAudioData, desiredState, debounceDelay, hgt]
    · intro hv
      cases hv
      by_cases hlt : avgLevel (pushHistory hist a) < EXIT_THRESHOLD <;>
        simp [onAudioData, desiredState, debounceDelay, hlt]

/-- C2 witness: a loud sample in `idle` with an empty window schedules a
300 ms timer, and a quiet sample in `listening` schedules a 1500 ms
timer. -/
theorem vad_tick_window_thresholds_delays_witness :
    (onAudioData ⟨VoiceState.idle, [], none⟩ (1/2)).timer = some 300 ∧
    (onAudioData ⟨VoiceState.listening, [], none⟩ 0).timer = some 1500 := by
  have h := vad_tick_window_thresholds_delays ⟨VoiceState.idle, [], none⟩ (1/2)
    (Or.inl rfl) (by simp)
  have h' := vad_tick_window_thresholds_delays ⟨VoiceState.listening, [], none⟩ 0
    (Or.inr rfl) (by simp)
  constructor
  · rw [(h.2.2 rfl).1 rfl, if_pos]
    norm_num [avgLevel, pushHistory, ENTER_THRESHOLD]
  · rw [(h'.2.2 rfl).2 rfl, if_pos]
    norm_num [avgLevel, pushHistory, EXIT_THRESHOLD]

/-- C3: a tick never commits a transition itself; a pending timer is
never replaced by a new one (it either stays or is cancelled); and when
the smoothed average is back on the side of the threshold consistent
with the current state, a pending timer is cancelled. -/
theorem vad_timer_unique_and_cancellation (st : VadState) (a : ℚ) :
    (onAudioData st a).voiceState = st.voiceState ∧
    (∀ t, st.timer = some t →
      (onAudioData st a).timer = some t ∨ (onAudioData st a).timer = none) ∧
    (st.timer ≠ none →
      (st.voiceState = VoiceState.idle →
        ¬ avgLevel (pushHistory st.history a) > ENTER_THRESHOLD →
        (onAudioData st a).timer = none) ∧
      (st.voiceState = VoiceState.listening →
        ¬ avgLevel (pushHistory st.history a) < EXIT_THRESHOLD →
        (onAudioData st a).timer = none)) := by
  obtain ⟨vs, hist, tm⟩ := st
  refine ⟨onAudioData_voiceState _ a, ?_, ?_⟩
  · intro t ht
    cases ht
    cases vs with
    | idle =>
        by_cases hgt : avgLevel (pushHistory hist a) > ENTER_THRESHOLD <;>
          simp [onAudioData, desiredState, hgt]
    | listening =>
        by_cases hlt : avgLevel (pushHistory hist a) < EXIT_THRESHOLD <;>
          simp [onAudioData, desiredState, hlt]
    | speaking => simp [onAudioData]
    | processing => simp [onAudioData]
  · intro htm
    constructor
    · intro hv hgt
      cases hv
      simp [onAudioData, desiredState, hgt, htm]
    · intro hv hlt
      cases hv
      simp [onAudioData, desiredState, hlt, htm]

/-- C3 witness: a pending timer in `idle` is cancelled when the average
is no longer above the enter threshold. -/
theorem vad_timer_unique_and_cancellation_witness :
    (onAudioData ⟨VoiceState.idle, [], some 300⟩ 0).timer = none := by
  have h := vad_timer_unique_and_cancellation ⟨VoiceState.idle, [], some 300⟩ 0
  exact (h.2.2 (by simp)).1 rfl (by norm_num [avgLevel, pushHistory, ENTER_THRESHOLD])

/-- C4 counterexample: after the final transcripts `"a"`, `" "` (empty
after trimming) and `"a"`, the code forwards only the first `"a"`,
whereas the claim (compare with the immediately preceding final
transcript) demands that the second `"a"` be forwarded as well. -/
theorem transcript_dedup_claim_counterexample :
    (runTranscripts ⟨"", ""⟩ [⟨"a", true, 1⟩, ⟨" ", true, 1⟩, ⟨"a", true, 1⟩]).2 ≠
      specDedupCalls "" [⟨"a", true, 1⟩, ⟨" ", true, 1⟩, ⟨"a", true, 1⟩] := by decide

/-- C4 (amended): a final transcript is forwarded to `onTextRecognized`
exactly when it is non-empty after trimming and differs from the most
recently forwarded final transcript (initially the empty string); all
other events produce no call. -/
theorem transcript_dedup_matches_last_forwarded (st : TState) (es : List TranscriptEvent) :
    (runTranscripts st es).2 = forwardedDedupCalls st.lastFinal es := by
  induction es generalizing st with
  | nil => rfl
  | cons e es ih =>
    by_cases hf : e.isFinal ∧ jsTrim e.transcript ≠ ""
    · by_cases he : e.transcript ≠ st.lastFinal
      · simp [runTranscripts, onTranscript, forwardedDedupCalls, hf, he, hf.1, hf.2, ih]
      · simp only [ne_eq, not_not] at he
        simp [runTranscripts, onTranscript, forwardedDedupCalls, hf, he, ih]
    · have hcond : ¬ (e.isFinal ∧ jsTrim e.transcript ≠ "" ∧ e.transcript ≠ st.lastFinal) := by
        intro hc
        exact hf ⟨hc.1, hc.2.1⟩
      simp [runTranscripts, onTranscript, forwardedDedupCalls, hf, hcond, ih]

/-- C5: on an initialized hook, a failing synthesis always ends with the
state `idle` (never `speaking`) and the failure recorded, whatever the
state was when `speak` was invoked. -/
theorem speak_failure_recovers_to_idle (s : VoiceState) :
    (speak true true s SynthResult.failure).state = VoiceState.idle ∧
    (speak true true s SynthResult.failure).uiError ≠ none ∧
    (speak true true s SynthResult.failure).state ≠ VoiceState.speaking := by
  simp [speak]

/-- C6: while the recognition handle is live, an engine-originated end
restarts recognition exactly when continuous mode was requested and
surfaces no callback; after an explicit `stopListening` the handle is
null and an engine-originated end never restarts. -/
theorem adapter_restart_only_before_stop (c : Bool) (st : AudioManager.AdapterState)
    (h : st.recognition ≠ none) :
    AudioManager.handleEngineEvent c st AudioManager.EngineEvent.ended = (st, [], c) ∧
    (AudioManager.stopListening st).recognition = none ∧
    (∀ c', AudioManager.handleEngineEvent c' (AudioManager.stopListening st)
        AudioManager.EngineEvent.ended = (AudioManager.stopListening st, [], false)) := by
  refine ⟨?_, rfl, ?_⟩
  · cases c <;> simp [AudioManager.handleEngineEvent, h]
  · intro c'
    cases c' <;> simp [AudioManager.handleEngineEvent, AudioManager.stopListening]

/-- C6 witness: with a live handle and continuous mode, an engine end
restarts silently; after `stopListening` it does not. -/
theorem adapter_restart_only_before_stop_witness :
    AudioManager.handleEngineEvent true ⟨some ()⟩ AudioManager.EngineEvent.ended
      = (⟨some ()⟩, [], true) ∧
    AudioManager.handleEngineEvent true (AudioManager.stopListening ⟨some ()⟩)
        AudioManager.EngineEvent.ended
      = (AudioManager.stopListening ⟨some ()⟩, [], false) :=
  ⟨(adapter_restart_only_before_stop true ⟨some ()⟩ (by simp)).1,
   (adapter_restart_only_before_stop true ⟨some ()⟩ (by simp)).2.2 true⟩

/-- C7 counterexample: a denied microphone is reported through the error
channel twice (once as `Microphone access denied` by the audio-context
initializer, once re-reported by `startListening`), not exactly once. -/
theorem mic_denied_reported_once_counterexample :
    ¬ ((hookStartListening (Except.error "NotAllowedError")).errorReports.length = 1) := by
  decide

/-- C7 (amended): a denied microphone is reported through the error
channel exactly twice; the hook ends in `idle` with recognition not
started, no analysis loop running, a stored UI error message, and a
single microphone request (no automatic retry). -/
theorem mic_denied_outcome (e : String) :
    hookStartListening (Except.error e) =
      { state := VoiceState.idle,
        errorReports := ["Microphone access denied", e],
        uiError := some "Failed to access microphone. Please allow microphone permissions and try again.",
        recognitionStarted := false, analysisLoopRunning := false, micRequests := 1 } := rfl

/-- C8 counterexample: when the host response arrives with voice output
disabled and the microphone enabled, recognition is not resumed, contrary
to the claim. -/
theorem response_voice_disabled_counterexample :
    ¬ ((VoiceMode.handleHostResponse false true).state = VoiceState.idle ∧
       (VoiceMode.handleHostResponse false true).listeningResumed = true) := by decide

/-- C8 (amended): when the host response arrives with voice output
disabled, the pending flag is cleared and the state set to `idle`, but
recognition is not resumed regardless of the microphone setting. -/
theorem response_voice_disabled_no_resume (mic : Bool) :
    VoiceMode.handleHostResponse false mic =
      { state := VoiceState.idle, pendingResponse := false,
        listeningResumed := false, spokeResponse := false } := rfl

/-- C9 counterexample: destroying twice re-issues the
`cancelAnimationFrame` release for the very same animation-frame id,
because `destroy` never clears `animationId`. -/
theorem destroy_twice_duplicate_cancel_counterexample :
    AudioManager.ReleaseAction.cancelAnimationFrame 7 ∈
      (AudioManager.destroy
        ⟨some (), some 7, some (), some (), some (), some (), some ()⟩).2 ∧
    AudioManager.ReleaseAction.cancelAnimationFrame 7 ∈
      (AudioManager.destroy (AudioManager.destroy
        ⟨some (), some 7, some (), some (), some (), some (), some ()⟩).1).2 := by decide

/-- C9 (amended): a second `destroy` is harmless for every nulled handle
(it leaves the state unchanged and releases none of recognition,
microphone, audio context or stream again), but it unconditionally
re-invokes the synthesis cancel and, because `animationId` is never
cleared, re-issues `cancelAnimationFrame` with the stale id. -/
theorem destroy_second_call_behaviour (st : AudioManager.ManagerState) :
    (AudioManager.destroy (AudioManager.destroy st).1).1 = (AudioManager.destroy st).1 ∧
    (AudioManager.destroy (AudioManager.destroy st).1).2 =
      AudioManager.ReleaseAction.synthesisCancel ::
        (match st.animationId with
          | some i => [AudioManager.ReleaseAction.cancelAnimationFrame i]
          | none => []) := by
  cases h : st.animationId <;> simp [AudioManager.destroy, h]

/-- C10: the hook's `startListening` clears both the interim transcript
and the retained last final transcript, so a final transcript equal to
the previous session's last final transcript is forwarded again. -/
theorem restart_scopes_dedup_to_session (st : TState) (t : String) (c : ℚ)
    (h : jsTrim t ≠ "") :
    (startListeningReset st).lastFinal = "" ∧
    (startListeningReset st).transcript = "" ∧
    (onTranscript (startListeningReset st) ⟨t, true, c⟩).2 = [t] := by
  refine ⟨rfl, rfl, ?_⟩
  have ht : t ≠ "" := by
    rintro rfl
    exact h (by decide)
  simp [onTranscript, startListeningReset, h, ht]

/-- C10 witness: after a reset, the same final transcript as the previous
session's last one is forwarded again. -/
theorem restart_scopes_dedup_to_session_witness :
    (onTranscript (startListeningReset ⟨"organize my tabs", "x"⟩)
        ⟨"organize my tabs", true, 1⟩).2 = ["organize my tabs"] :=
  (restart_scopes_dedup_to_session ⟨"organize my tabs", "x"⟩ "organize my tabs" 1
    (by decide)).2.2

end Theorems
